import Mathlib

/-!
Verification of the SHAMBA soil-carbon engine (`shamba/model/soil_model.py`).

The RothC soil model is embedded shallowly:
* pure arithmetic (TSMD recurrence, solver scan loops) is modelled over `ℚ`,
  so that concrete runs are decidable;
* formulas involving the exponential function (partition coefficients,
  temperature rate-modifying factor) are modelled over `ℝ` with `Real.exp`;
* outputs of external numeric routines (`scipy.optimize.fsolve`,
  `scipy.integrate.odeint`) are abstracted as function parameters giving the
  per-candidate / per-step totals, and the surrounding search loops are
  embedded faithfully;
* fatal paths (`sys.exit`, Python `NameError` from unbound variables,
  numpy broadcast errors) are modelled by `Option`, with `none` for a crash.
-/

namespace RothC

/-- Month index with Python-style wraparound: the source wraps indices with
`if m > 11: m = 0` and relies on `deficit[-1]` indexing the last month, so a
running month counter is reduced mod 12. -/
def idx (n : ℕ) : Fin 12 := ⟨n % 12, Nat.mod_lt n (by norm_num)⟩

/-- Moisture-deficit cap from `RothC.get_rmf`:
`max = -(20+ 1.3*cc - 0.01*(cc**2)) * (d/23.0)` with `cc` the clay content
and `d` the soil depth. -/
def cap (clay depth : ℚ) : ℚ :=
  -(20 + 1.3 * clay - 0.01 * clay ^ 2) * (depth / 23)

/-- One step of the accumulated topsoil-moisture-deficit recurrence,
`RothC._get_acc_tsmd(smd, def_m, cover_m, max)`. -/
def get_acc_tsmd (smd def_m : ℚ) (cover_m : Bool) (mx : ℚ) : ℚ :=
  if 0 < def_m then
    if 0 < smd + def_m then 0 else smd + def_m
  else
    if cover_m then
      if smd + def_m < mx then mx else smd + def_m
    else
      if smd < 0.556 * mx then smd
      else if smd + def_m < 0.556 * mx then 0.556 * mx else smd + def_m

/-- First month with positive deficit, `RothC._get_first_pos_def`.
The source iterates over the 1-tuple returned by `np.where(deficit > 0)` and
guards with `any(i)`; the net effect is the first index with positive deficit,
and 0 (with a warning) when there is none, or when the only such index is 0
(`any([0])` is falsy, but the fallback is also 0). -/
def get_first_pos_def (deficit : Fin 12 → ℚ) : ℕ :=
  match (List.range 12).find? (fun n => decide (0 < deficit (idx n))) with
  | some n => n
  | none => 0

/-- First month after `m` (cyclically) with negative deficit and a flag that
is true when no month has negative deficit, `RothC._get_first_neg_def`. -/
def get_first_neg_def (deficit : Fin 12 → ℚ) (m : ℕ) : ℕ × Bool :=
  match (List.range 12).find? (fun k => decide (deficit (idx (m + k + 1)) < 0)) with
  | some k => ((m + k + 1) % 12, false)
  | none => (m % 12, true)

/-- The 12-iteration TSMD loop of `RothC.get_rmf`, producing the moisture
factor `b` for each month.  `none` models the fatal
`log.error("DEFICIT = ..."); sys.exit(1)` branch taken when the accumulated
TSMD falls below the cap. -/
def tsmd_loop (deficit : Fin 12 → ℚ) (cover : Fin 12 → Bool) (mx : ℚ) :
    ℕ → ℕ → ℚ → (Fin 12 → ℚ) → Option (Fin 12 → ℚ)
  | 0, _, _, b => some b
  | n + 1, m, acc, b =>
    let acc' := get_acc_tsmd acc (deficit (idx m)) (cover (idx m)) mx
    if 0.444 * mx ≤ acc' then
      tsmd_loop deficit cover mx n (m + 1) acc' (Function.update b (idx m) 1)
    else if mx ≤ acc' then
      tsmd_loop deficit cover mx n (m + 1) acc'
        (Function.update b (idx m) (0.2 + 0.8 * (mx - acc') / (0.556 * mx)))
    else none

/-- The moisture-factor part of `RothC.get_rmf`: monthly deficits
`rain - evap` drive the search for the starting month, the recurrence then
runs on `rain - 0.75*evap`; when rainfall never falls below evaporation the
factor is 1 in every month (the early `return b.mean()` with `b = ones`). -/
def get_b (rain evap : Fin 12 → ℚ) (cover : Fin 12 → Bool) (clay depth : ℚ) :
    Option (Fin 12 → ℚ) :=
  let deficit1 : Fin 12 → ℚ := fun m => rain m - evap m
  let m0 := get_first_pos_def deficit1
  let r := get_first_neg_def deficit1 m0
  if r.2 then some (fun _ => 1)
  else
    let mx := cap clay depth
    let deficit2 : Fin 12 → ℚ := fun m => rain m - 0.75 * evap m
    tsmd_loop deficit2 cover mx 12 (r.1 + 11) 0 (fun _ => 1)

/-- Temperature rate-modifying factor of `RothC.get_rmf`.  The source writes
`for i in np.where(self.climate.temp > -5.0): a[i] = 47.91 / (1.0 +
np.exp(106.06 / (self.climate.temp+18.27)))`: the loop runs once with `i` the
whole index array, and the right-hand side is the full 12-vector, so the fancy
assignment succeeds exactly when all 12 months are selected (all warmer than
-5 °C) and raises a numpy broadcast `ValueError` otherwise (modelled `none`). -/
noncomputable def temp_factor (temp : Fin 12 → ℚ) : Option (Fin 12 → ℝ) :=
  if ∀ m, (-5 : ℚ) < temp m then
    some (fun m => 47.91 / (1 + Real.exp (106.06 / ((temp m : ℝ) + 18.27))))
  else none

/-- Intermediate `z` in both `get_partitions` methods. -/
noncomputable def zval (clay : ℝ) : ℝ :=
  1.67 * (1.85 + 1.6 * Real.exp (-0.0786 * clay))

/-- Fraction of decayed carbon lost as CO2, `p2 = z/(z+1)`. -/
noncomputable def p2 (clay : ℝ) : ℝ := zval clay / (zval clay + 1)

end RothC

/-- Partitioning coefficients for the four pools, as built by both
`get_partitions` methods: `np.array([p1, 1-p1, p3*(1-p2), (1-p2)*(1-p3)])`. -/
structure PartitionVector where
  xDPM : ℝ
  xRPM : ℝ
  xBIO : ℝ
  xHUM : ℝ

/-- Sum of the four components of a partition vector. -/
def PartitionVector.total (x : PartitionVector) : ℝ :=
  x.xDPM + x.xRPM + x.xBIO + x.xHUM

namespace InverseRothC

/-- Equilibrium-mode partition coefficients, `InverseRothC.get_partitions`:
`p1 = 0.2` (no crops at equilibrium), `p3 = 0.46`. -/
noncomputable def get_partitions (clay : ℝ) : PartitionVector :=
  { xDPM := 0.2
    xRPM := 1 - 0.2
    xBIO := 0.46 * (1 - RothC.p2 clay)
    xHUM := (1 - RothC.p2 clay) * (1 - 0.46) }

/-- Candidate input grid of `InverseRothC.solver`,
`np.arange(0.01, 10, 0.001)`: the `k`-th candidate annual input. -/
def grid (k : ℕ) : ℚ := 1 / 100 + (k : ℚ) / 1000

/-- Scan loop of `InverseRothC.solver`, abstracted over the per-candidate
error `d k = |Ctot_k - Ceq|` (the `fsolve` steady state total is external).
State: remaining candidates, current index, `prevDiff`, best index so far
(`none` while `prevC`/`inputC` are still unbound).  Returns the best index
and the number of candidates evaluated; a final `none` best models the
`NameError` on `eqC = prevC` when no candidate ever improved on the 1000.0
sentinel. -/
def solver_loop (d : ℕ → ℚ) : ℕ → ℕ → ℚ → Option ℕ → Option ℕ × ℕ
  | 0, _, _, best => (best, 0)
  | n + 1, k, pd, best =>
    if d k < pd then
      let r := solver_loop d n (k + 1) (d k) (some k)
      (r.1, r.2 + 1)
    else if pd < d k then (best, 1)
    else
      let r := solver_loop d n (k + 1) pd best
      (r.1, r.2 + 1)

/-- Full scan of `InverseRothC.solver`: 9990 grid candidates, `prevDiff`
initialised to 1000.0, no best candidate bound yet. -/
def solver (d : ℕ → ℚ) : Option ℕ × ℕ := solver_loop d 9990 0 1000 none

/-- Running minimum of the candidate errors together with the 1000.0
sentinel: the value of `prevDiff` when candidate `k` is examined. -/
def runMin (d : ℕ → ℚ) : ℕ → ℚ
  | 0 => 1000
  | k + 1 => min (runMin d k) (d k)

end InverseRothC

namespace ForwardRothC

/-- Forward-mode partition coefficients for one year,
`ForwardRothC.get_partitions`: the row is normalised unless its total is
within 1e-8 of zero, in which case both normalised shares are set to 0. -/
noncomputable def get_partitions_row (clay crop tree : ℝ) : PartitionVector :=
  let total := crop + tree
  let nCrop := if |total| < 0.00000001 then (0 : ℝ) else crop / total
  let nTree := if |total| < 0.00000001 then (0 : ℝ) else tree / total
  let p1 := 0.59 * nCrop + 0.2 * nTree
  { xDPM := p1
    xRPM := 1 - p1
    xBIO := 0.46 * (1 - RothC.p2 clay)
    xHUM := (1 - RothC.p2 clay) * (1 - 0.46) }

/-- Inner loop of the solve-to-value search in `ForwardRothC.solver`:
walks the 1000 sub-year rows of one year's `odeint` output, abstracted over
the per-row error `d i j = |Ctot - Cy0|`.  State: fuel, current row `j`,
`prevDiff_inner`, and the last accepted point `(i, j)` (covering both
`c_inner` and `closest_j`, which the source always updates together and never
resets).  A row is accepted while `currDiff - prevDiff_inner < 1e-8`. -/
def stv_inner (d : ℕ → ℕ → ℚ) (i : ℕ) :
    ℕ → ℕ → ℚ → Option (ℕ × ℕ) → ℚ × Option (ℕ × ℕ)
  | 0, _, pd, cin => (pd, cin)
  | fuel + 1, j, pd, cin =>
    if d i j - pd < 0.00000001 then stv_inner d i fuel (j + 1) (d i j) (some (i, j))
    else (pd, cin)

/-- Outer (yearly) loop of the solve-to-value search in
`ForwardRothC.solver`: years run from 1; after each year's inner scan the
outer best (`c_outer`, `closest_i`) is updated when `prevDiff_inner <
prevDiff_outer`, otherwise the search stops.  Returns
`(closest_i, c_outer, last accepted inner point)`; the source reads
`closest_j` from the third component even when it was set in a year later
than `closest_i`. -/
def stv_outer (d : ℕ → ℕ → ℚ) :
    ℕ → ℕ → ℚ → ℚ → Option (ℕ × ℕ) → Option (ℕ × ℕ) → Option ℕ →
    Option ℕ × Option (ℕ × ℕ) × Option (ℕ × ℕ)
  | 0, _, _, _, cin, cout, ci => (ci, cout, cin)
  | years + 1, i, pdI, pdO, cin, cout, ci =>
    let r := stv_inner d i 1000 0 pdI cin
    if r.1 < pdO then stv_outer d years (i + 1) r.1 r.1 r.2 r.2 (some i)
    else (ci, cout, r.2)

/-- Solve-to-value result of `ForwardRothC.solver`: the year `closest_i` at
which the stock trajectory is truncated, the pools `c_outer` written into the
final row, and `closest_j`, from which
`year_target_reached = float(closest_j) / len(t)` with `len(t) = 1000`.
`none` components model the `NameError` when the corresponding Python
variable is never bound. -/
def solver_stv (d : ℕ → ℕ → ℚ) (nYears : ℕ) :
    Option ℕ × Option (ℕ × ℕ) × Option ℕ :=
  let r := stv_outer d nYears 1 1000 1000 none none none
  (r.1, r.2.1, r.2.2.map Prod.snd)

end ForwardRothC

/-! Concrete monthly series used as counterexample and witness inputs. -/

/-- Climate with zero rainfall: rain series. -/
def rainDry : Fin 12 → ℚ := fun _ => 0

/-- Climate with zero rainfall: evaporation series. -/
def evapDry : Fin 12 → ℚ := fun _ => 100

/-- Bare soil all year. -/
def coverBare : Fin 12 → Bool := fun _ => false

/-- Wet climate: rain series. -/
def rainWet : Fin 12 → ℚ := fun _ => 10

/-- Wet climate: evaporation series. -/
def evapWet : Fin 12 → ℚ := fun _ => 5

/-- Temperature series with one month colder than -5 degrees C. -/
def tempOneCold : Fin 12 → ℚ := fun m => if m = 0 then -10 else 20

/-- Candidate-error stream that is constant at 1500, above the sentinel. -/
def dConst1500 : ℕ → ℚ := fun _ => 1500

/-- Candidate-error stream that is constant at 2000, above the sentinel. -/
def dConst2000 : ℕ → ℚ := fun _ => 2000

/-- Candidate-error stream 600, 800, 800, ... (min at the first candidate). -/
def dStepUp : ℕ → ℚ := fun k => if k = 0 then 600 else 800

/-- Candidate-error stream 500, 700, 700, ... (never decreases after 0). -/
def dFlat : ℕ → ℚ := fun k => if k = 0 then 500 else 700

/-- Monotonically increasing stock trajectory crossing the target during
year 2: year 1 climbs 0..999, year 2 starts at 999.5, later years jump to
`1000*i`. -/
def sC8 (i j : ℕ) : ℚ :=
  if i ≤ 1 then j else if i = 2 then 999.5 + j else 1000 * i + j

/-- Per-row error stream of the trajectory `sC8` against target 999.6. -/
def dC8 : ℕ → ℕ → ℚ := fun i j => |sC8 i j - 999.6|

/-- Constant error stream for the solve-to-value witness. -/
def dW8 : ℕ → ℕ → ℚ := fun _ _ => 500

/-! Shared helper lemmas. -/

lemma zval_pos (clay : ℝ) : 0 < RothC.zval clay := by
  unfold RothC.zval
  positivity

lemma p2_lt_one (clay : ℝ) : RothC.p2 clay < 1 := by
  unfold RothC.p2
  rw [div_lt_one (by linarith [zval_pos clay])]
  linarith

lemma inv_partitions_total (clay : ℝ) :
    (InverseRothC.get_partitions clay).total = 2 - RothC.p2 clay := by
  simp only [InverseRothC.get_partitions, PartitionVector.total]
  ring

lemma fwd_partitions_total (clay crop tree : ℝ) :
    (ForwardRothC.get_partitions_row clay crop tree).total = 2 - RothC.p2 clay := by
  simp only [ForwardRothC.get_partitions_row, PartitionVector.total]
  ring

lemma cap_nonpos (clay depth : ℚ) (h0 : 0 ≤ clay) (h1 : clay ≤ 100)
    (h2 : 0 < depth) : RothC.cap clay depth ≤ 0 := by
  unfold RothC.cap
  have hq : 0 ≤ 20 + 1.3 * clay - 0.01 * clay ^ 2 := by
    nlinarith [mul_le_mul_of_nonneg_left h1 h0]
  have hd : (0 : ℚ) ≤ depth / 23 := by positivity
  nlinarith [mul_nonneg hq hd]

/-! C1.  The spec asserts that every partition vector has its four components
summing to 1.  In the source the first two components (the DPM/RPM input
split) sum to 1, but the last two are fractions of the decay flux, summing to
`1 - p2` (the share not lost as CO2), so the four components sum to
`2 - p2 > 1`. -/

/-- C1 counterexample: at clay 0 the equilibrium-mode partition vector of
`InverseRothC.get_partitions` has components summing to `2 - p2 0`, which is
not 1. -/
theorem c1_counterexample : (InverseRothC.get_partitions 0).total ≠ 1 := by
  rw [inv_partitions_total]
  have := p2_lt_one 0
  intro h
  linarith

/-- C1 (amended): for every clay value and every yearly input pair, the
DPM and RPM components sum to 1, while the full four-component sum is
`2 - p2 clay`, strictly greater than 1, in both equilibrium and forward
modes. -/
theorem c1_amended (clay crop tree : ℝ) :
    (InverseRothC.get_partitions clay).xDPM
        + (InverseRothC.get_partitions clay).xRPM = 1 ∧
    (InverseRothC.get_partitions clay).total = 2 - RothC.p2 clay ∧
    1 < (InverseRothC.get_partitions clay).total ∧
    (ForwardRothC.get_partitions_row clay crop tree).xDPM
        + (ForwardRothC.get_partitions_row clay crop tree).xRPM = 1 ∧
    (ForwardRothC.get_partitions_row clay crop tree).total = 2 - RothC.p2 clay ∧
    1 < (ForwardRothC.get_partitions_row clay crop tree).total := by
  have hp2 := p2_lt_one clay
  refine ⟨by norm_num [InverseRothC.get_partitions], inv_partitions_total clay,
    ?_, ?_, fwd_partitions_total clay crop tree, ?_⟩
  · rw [inv_partitions_total]; linarith
  · simp only [ForwardRothC.get_partitions_row]; ring
  · rw [fwd_partitions_total]; linarith

/-! C2.  Forward-mode `x_DPM` is the blend `0.59*cropShare + 0.2*treeShare`
for years with total input away from zero, but for a year whose total input
is within 1e-8 of zero the source zeroes both normalised shares, giving
`x_DPM = 0` and `x_RPM = 1` rather than the woody values 0.2/0.8 the spec
claims. -/

/-- C2 counterexample: a year with zero crop and tree input has total input
approximately zero, yet `x_DPM` is 0 (not the woody archetype 0.2) and
`x_RPM` is 1 (not 0.8). -/
theorem c2_counterexample :
    |(0 : ℝ) + 0| < 0.00000001 ∧
    (ForwardRothC.get_partitions_row 20 0 0).xDPM ≠ 0.2 ∧
    (ForwardRothC.get_partitions_row 20 0 0).xRPM ≠ 0.8 := by
  norm_num [ForwardRothC.get_partitions_row]

/-- C2 (amended): for a year with `|crop + tree| ≥ 1e-8` the forward-mode
`x_DPM` is the blend `0.59*(crop share) + 0.2*(tree share)` and
`x_RPM = 1 - x_DPM`; for a year with total input within 1e-8 of zero both
normalised shares default to 0, so `x_DPM = 0` and `x_RPM = 1`. -/
theorem c2_amended (clay crop tree : ℝ) :
    ((0.00000001 : ℝ) ≤ |crop + tree| →
      (ForwardRothC.get_partitions_row clay crop tree).xDPM
          = 0.59 * (crop / (crop + tree)) + 0.2 * (tree / (crop + tree)) ∧
      (ForwardRothC.get_partitions_row clay crop tree).xRPM
          = 1 - (ForwardRothC.get_partitions_row clay crop tree).xDPM) ∧
    (|crop + tree| < 0.00000001 →
      (ForwardRothC.get_partitions_row clay crop tree).xDPM = 0 ∧
      (ForwardRothC.get_partitions_row clay crop tree).xRPM = 1) := by
  constructor
  · intro h
    have h' : ¬|crop + tree| < 0.00000001 := not_lt.mpr h
    constructor <;> simp [ForwardRothC.get_partitions_row, h']
  · intro h
    constructor <;> simp [ForwardRothC.get_partitions_row, h]

/-- C2 witness: a year with crop input 3 and tree input 1 gets the blended
`x_DPM`. -/
theorem c2_witness :
    (ForwardRothC.get_partitions_row 10 3 1).xDPM
      = 0.59 * ((3 : ℝ) / (3 + 1)) + 0.2 * ((1 : ℝ) / (3 + 1)) :=
  ((c2_amended 10 3 1).1 (by norm_num)).1

/-! C3.  The TSMD recurrence for an uncovered month with negative deficit:
the source leaves the accumulator unchanged while it is numerically BELOW
`0.556*cap` (deeper in deficit than the bare-soil limit), and accumulates,
flooring at `0.556*cap`, while it is at or above that threshold.  The claim
states the two regimes the other way around. -/

/-- C3 counterexample: with accumulated TSMD 0 (above `0.556*cap = -5.56`),
a negative deficit `-1` and no cover, the recurrence does not leave the
accumulator unchanged: it accumulates to `-1`. -/
theorem c3_counterexample :
    0.556 * (-10 : ℚ) < 0 ∧ (-1 : ℚ) < 0 ∧
    RothC.get_acc_tsmd 0 (-1) false (-10) ≠ 0 := by
  norm_num [RothC.get_acc_tsmd]

/-- C3 (amended): for a month with negative deficit and no soil cover, the
accumulated TSMD is left unchanged while it is still below `0.556*cap`, and
once it is at or above `0.556*cap` the recurrence resumes accumulating the
deficit, clamping the result at `0.556*cap` from below. -/
theorem c3_amended (smd d mx : ℚ) (hd : d < 0) :
    (smd < 0.556 * mx → RothC.get_acc_tsmd smd d false mx = smd) ∧
    (0.556 * mx ≤ smd →
      RothC.get_acc_tsmd smd d false mx = max (smd + d) (0.556 * mx)) := by
  constructor <;> intro h
  · simp [RothC.get_acc_tsmd, not_lt.mpr hd.le, h]
  · simp only [RothC.get_acc_tsmd, if_neg (not_lt.mpr hd.le), Bool.false_eq_true,
      if_false, if_neg (not_lt.mpr h)]
    rcases lt_or_le (smd + d) (0.556 * mx) with hc | hc
    · rw [if_pos hc, max_eq_right hc.le]
    · rw [if_neg (not_lt.mpr hc), max_eq_left hc]

/-- C3 witness: accumulated TSMD `-2` (above the threshold `-5.56`) with
deficit `-3` accumulates to `-5`. -/
theorem c3_witness : RothC.get_acc_tsmd (-2) (-3) false (-10) = -5 := by
  have h := (c3_amended (-2) (-3) (-10) (by norm_num)).2 (by norm_num)
  rw [h]
  norm_num [max_def]

/-! C5.  The temperature factor: the source initialises `a` to zeros and
intends `a_m = 0` for months at or below -5 °C, but iterates over the tuple
returned by `np.where` and assigns the full 12-vector through the selected
indices, which raises a broadcast error whenever fewer than 12 months are
selected.  The claim matches the intent; the code crashes instead. -/

/-- C5: on a temperature series with one month at -10 °C the claim requires
`a_0 = 0`, but the fancy assignment in `RothC.get_rmf` raises a numpy
broadcast error (modelled as `none`). -/
theorem c5_code_bug : RothC.temp_factor tempOneCold = none := by
  have hneg : ¬∀ m : Fin 12, (-5 : ℚ) < tempOneCold m := by
    intro h
    have := h 0
    norm_num [tempOneCold] at this
  simp [RothC.temp_factor, hneg]

/-! C9.  The moisture-deficit cap is nonpositive for clay in [0,100] and any
positive depth. -/

/-- C9: for clay in [0, 100] and positive depth, the moisture deficit cap
`-(20 + 1.3*clay - 0.01*clay^2)*(depth/23)` of `RothC.get_rmf` is at most
0. -/
theorem c9_cap_nonpos (clay depth : ℚ) (h0 : 0 ≤ clay) (h1 : clay ≤ 100)
    (h2 : 0 < depth) : RothC.cap clay depth ≤ 0 :=
  cap_nonpos clay depth h0 h1 h2

/-- C9 witness: the cap at clay 30 and the fixed depth 30 is at most 0. -/
theorem c9_witness : RothC.cap 30 30 ≤ 0 :=
  c9_cap_nonpos 30 30 (by norm_num) (by norm_num) (by norm_num)

/-! Helper lemmas for the TSMD recurrence and its 12-month loop. -/

lemma get_acc_tsmd_bounds (mx smd d : ℚ) (cov : Bool) (hmx : mx ≤ 0)
    (h1 : mx ≤ smd) (h2 : smd ≤ 0) :
    mx ≤ RothC.get_acc_tsmd smd d cov mx ∧ RothC.get_acc_tsmd smd d cov mx ≤ 0 := by
  unfold RothC.get_acc_tsmd
  split_ifs <;> constructor <;> linarith

lemma tsmd_loop_isSome (def2 : Fin 12 → ℚ) (cov : Fin 12 → Bool) (mx : ℚ)
    (hmx : mx ≤ 0) :
    ∀ n m acc b, mx ≤ acc → acc ≤ 0 →
      (RothC.tsmd_loop def2 cov mx n m acc b).isSome = true := by
  intro n
  induction n with
  | zero => intro m acc b _ _; simp [RothC.tsmd_loop]
  | succ n ih =>
    intro m acc b h1 h2
    have hb := get_acc_tsmd_bounds mx acc (def2 (RothC.idx m)) (cov (RothC.idx m)) hmx h1 h2
    simp only [RothC.tsmd_loop]
    split_ifs with ha hb2
    · exact ih (m + 1) _ _ hb.1 hb.2
    · exact ih (m + 1) _ _ hb.1 hb.2
    · exact absurd hb.1 hb2

lemma tsmd_loop_preserve (def2 : Fin 12 → ℚ) (cov : Fin 12 → Bool) (mx : ℚ) :
    ∀ n m acc b b' (p : Fin 12),
      (∀ k, m ≤ k → k < m + n → RothC.idx k ≠ p) →
      RothC.tsmd_loop def2 cov mx n m acc b = some b' → b' p = b p := by
  intro n
  induction n with
  | zero =>
    intro m acc b b' p _ h
    simp only [RothC.tsmd_loop, Option.some.injEq] at h
    rw [← h]
  | succ n ih =>
    intro m acc b b' p hp h
    simp only [RothC.tsmd_loop] at h
    have hm : RothC.idx m ≠ p := hp m le_rfl (by omega)
    have hp' : ∀ k, m + 1 ≤ k → k < (m + 1) + n → RothC.idx k ≠ p :=
      fun k hk1 hk2 => hp k (by omega) (by omega)
    split_ifs at h with ha hb2
    · rw [ih (m + 1) _ _ _ _ hp' h, Function.update_apply, if_neg (Ne.symm hm)]
    · rw [ih (m + 1) _ _ _ _ hp' h, Function.update_apply, if_neg (Ne.symm hm)]

lemma tsmd_loop_step2 (deficit : Fin 12 → ℚ) (cover : Fin 12 → Bool) (mx : ℚ)
    (n m : ℕ) (acc acc' : ℚ) (b : Fin 12 → ℚ) (hn : n ≠ 0)
    (hacc : RothC.get_acc_tsmd acc (deficit (RothC.idx m)) (cover (RothC.idx m)) mx = acc')
    (h1 : ¬0.444 * mx ≤ acc') (h2 : mx ≤ acc') :
    RothC.tsmd_loop deficit cover mx n m acc b
      = RothC.tsmd_loop deficit cover mx (n - 1) (m + 1) acc'
          (Function.update b (RothC.idx m) (0.2 + 0.8 * (mx - acc') / (0.556 * mx))) := by
  obtain ⟨n', rfl⟩ : ∃ n', n = n' + 1 := ⟨n - 1, by omega⟩
  simp only [RothC.tsmd_loop, hacc, if_neg h1, if_pos h2, Nat.add_sub_cancel]

lemma find_pos_none (deficit : Fin 12 → ℚ) (h : ∀ m, deficit m ≤ 0) :
    RothC.get_first_pos_def deficit = 0 := by
  unfold RothC.get_first_pos_def
  have hf : (List.range 12).find? (fun n => decide (0 < deficit (RothC.idx n))) = none :=
    List.find?_eq_none.mpr (fun x _ => by simp [not_lt.mpr (h _)])
  rw [hf]

lemma find_neg_none (deficit : Fin 12 → ℚ) (m : ℕ) (h : ∀ mm, 0 ≤ deficit mm) :
    RothC.get_first_neg_def deficit m = (m % 12, true) := by
  unfold RothC.get_first_neg_def
  have hf : (List.range 12).find?
      (fun k => decide (deficit (RothC.idx (m + k + 1)) < 0)) = none :=
    List.find?_eq_none.mpr (fun x _ => by simp [not_lt.mpr (h _)])
  rw [hf]

lemma find_neg_first (deficit : Fin 12 → ℚ) (m : ℕ)
    (h : deficit (RothC.idx (m + 1)) < 0) :
    RothC.get_first_neg_def deficit m = ((m + 1) % 12, false) := by
  unfold RothC.get_first_neg_def
  rw [show (12 : ℕ) = 11 + 1 from rfl, List.range_succ_eq_map]
  rw [List.find?_cons_of_pos _ (by simpa using h)]

/-! C4.  The early `b = 1` exit of `RothC.get_rmf` happens when no month has
rain below evaporation.  When no month has a positive deficit but some month
has a negative one, the source logs a warning, starts the recurrence at
month 0, and computes moisture factors that can be below 1 — so the claim's
condition (no positive deficit) does not give `b_m = 1`. -/

/-- C4 counterexample: a climate with zero rain and constant evaporation 100
has no month with positive deficit, yet the moisture factor of month 0 is
`583/695`, not 1. -/
theorem c4_counterexample :
    (∀ m, rainDry m - evapDry m ≤ 0) ∧
    (RothC.get_b rainDry evapDry coverBare 0 30).map (fun b => b 0) ≠ some 1 := by
  constructor
  · intro m; norm_num [rainDry, evapDry]
  · have hpos : RothC.get_first_pos_def (fun m => rainDry m - evapDry m) = 0 :=
      find_pos_none _ (fun m => by norm_num [rainDry, evapDry])
    have hneg : RothC.get_first_neg_def (fun m => rainDry m - evapDry m) 0 = (1, false) := by
      rw [find_neg_first _ _ (by norm_num [rainDry, evapDry])]
    have hgb : RothC.get_b rainDry evapDry coverBare 0 30
        = RothC.tsmd_loop (fun m => rainDry m - 0.75 * evapDry m) coverBare
            (RothC.cap 0 30) 12 12 0 (fun _ => 1) := by
      simp only [RothC.get_b, hpos, hneg, Bool.false_eq_true, if_false]
    have hstep : RothC.tsmd_loop (fun m => rainDry m - 0.75 * evapDry m) coverBare
          (RothC.cap 0 30) 12 12 0 (fun _ => 1)
        = RothC.tsmd_loop (fun m => rainDry m - 0.75 * evapDry m) coverBare
            (RothC.cap 0 30) 11 13 (0.556 * RothC.cap 0 30)
            (Function.update (fun _ => 1) (RothC.idx 12)
              (0.2 + 0.8 * (RothC.cap 0 30 - 0.556 * RothC.cap 0 30)
                / (0.556 * RothC.cap 0 30))) := by
      have := tsmd_loop_step2 (fun m => rainDry m - 0.75 * evapDry m) coverBare
        (RothC.cap 0 30) 12 12 0 (0.556 * RothC.cap 0 30) (fun _ => 1)
        (by norm_num)
        (by norm_num [RothC.get_acc_tsmd, RothC.cap, rainDry, evapDry, coverBare])
        (by norm_num [RothC.cap]) (by norm_num [RothC.cap])
      simpa using this
    rw [hgb, hstep]
    obtain ⟨b', hb'⟩ := Option.isSome_iff_exists.mp
      (tsmd_loop_isSome (fun m => rainDry m - 0.75 * evapDry m) coverBare
        (RothC.cap 0 30) (by norm_num [RothC.cap]) 11 13
        (0.556 * RothC.cap 0 30) _ (by norm_num [RothC.cap]) (by norm_num [RothC.cap]))
    rw [hb']
    have h0 : b' 0 = 0.2 + 0.8 * (RothC.cap 0 30 - 0.556 * RothC.cap 0 30)
        / (0.556 * RothC.cap 0 30) := by
      rw [tsmd_loop_preserve (fun m => rainDry m - 0.75 * evapDry m) coverBare
        (RothC.cap 0 30) 11 13 (0.556 * RothC.cap 0 30) _ b' 0
        (fun k hk1 hk2 => by
          simp only [RothC.idx, Ne, Fin.ext_iff, Fin.val_zero]
          omega) hb']
      rw [Function.update_apply, if_pos (by decide : (0 : Fin 12) = RothC.idx 12)]
    simp only [Option.map_some', ne_eq, Option.some.injEq]
    rw [h0]
    norm_num [RothC.cap]

/-- C4 (amended): when no month has a negative deficit (rain at or above
evaporation all year), `RothC.get_rmf` takes the early exit in which the
moisture factor is 1 for all 12 months. -/
theorem c4_amended (rain evap : Fin 12 → ℚ) (cover : Fin 12 → Bool)
    (clay depth : ℚ) (h : ∀ m, 0 ≤ rain m - evap m) :
    RothC.get_b rain evap cover clay depth = some (fun _ => 1) := by
  simp only [RothC.get_b, find_neg_none (fun m => rain m - evap m) _ h]
  simp

/-- C4 witness: with rain 10 and evaporation 5 in every month, the moisture
factor is 1 in every month. -/
theorem c4_witness :
    RothC.get_b rainWet evapWet coverBare 5 30 = some (fun _ => 1) :=
  c4_amended rainWet evapWet coverBare 5 30
    (fun m => by norm_num [rainWet, evapWet])

/-! C10.  The TSMD accumulator invariant and the unreachability of the fatal
`sys.exit` branch. -/

/-- C10: for clay in [0,100] and positive depth, one recurrence step keeps
the accumulated TSMD within `[cap, 0]` whatever the deficit and cover, and
consequently `RothC.get_b` never reaches the fatal branch (it always returns
a moisture-factor vector). -/
theorem c10_tsmd_safe (clay depth : ℚ) (h0 : 0 ≤ clay) (h1 : clay ≤ 100)
    (h2 : 0 < depth) :
    (∀ smd d (cov : Bool), RothC.cap clay depth ≤ smd → smd ≤ 0 →
      RothC.cap clay depth ≤ RothC.get_acc_tsmd smd d cov (RothC.cap clay depth) ∧
      RothC.get_acc_tsmd smd d cov (RothC.cap clay depth) ≤ 0) ∧
    (∀ rain evap cover,
      (RothC.get_b rain evap cover clay depth).isSome = true) := by
  have hmx := cap_nonpos clay depth h0 h1 h2
  constructor
  · exact fun smd d cov hs1 hs2 => get_acc_tsmd_bounds _ _ _ _ hmx hs1 hs2
  · intro rain evap cover
    simp only [RothC.get_b]
    by_cases hq : (RothC.get_first_neg_def (fun m => rain m - evap m)
        (RothC.get_first_pos_def (fun m => rain m - evap m))).2
    · simp [hq]
    · simp only [hq, Bool.false_eq_true, if_false]
      exact tsmd_loop_isSome _ _ _ hmx 12 _ 0 _ hmx le_rfl

/-- C10 witness: on the dry climate with clay 30 and depth 30 the moisture
factor computation completes without hitting the fatal branch. -/
theorem c10_witness :
    (RothC.get_b rainDry evapDry coverBare 30 30).isSome = true :=
  (c10_tsmd_safe 30 30 (by norm_num) (by norm_num) (by norm_num)).2
    rainDry evapDry coverBare

/-! Helper lemmas for the inverse-solver scan loop. -/

lemma solver_loop_break (d : ℕ → ℚ) (n k : ℕ) (pd : ℚ) (best : Option ℕ)
    (hn : n ≠ 0) (h : pd < d k) :
    InverseRothC.solver_loop d n k pd best = (best, 1) := by
  obtain ⟨m, rfl⟩ : ∃ m, n = m + 1 := ⟨n - 1, by omega⟩
  simp [InverseRothC.solver_loop, h, not_lt.mpr h.le]

lemma solver_loop_improve (d : ℕ → ℚ) (n k : ℕ) (pd : ℚ) (best : Option ℕ)
    (hn : n ≠ 0) (h : d k < pd) :
    InverseRothC.solver_loop d n k pd best
      = ((InverseRothC.solver_loop d (n - 1) (k + 1) (d k) (some k)).1,
         (InverseRothC.solver_loop d (n - 1) (k + 1) (d k) (some k)).2 + 1) := by
  obtain ⟨m, rfl⟩ : ∃ m, n = m + 1 := ⟨n - 1, by omega⟩
  simp [InverseRothC.solver_loop, h, Nat.add_sub_cancel]

lemma solver_loop_keep (d : ℕ → ℚ) :
    ∀ n k (pd : ℚ) (j : ℕ), (∀ i, k ≤ i → i < k + n → pd ≤ d i) →
      (InverseRothC.solver_loop d n k pd (some j)).1 = some j := by
  intro n
  induction n with
  | zero => intro k pd j _; rfl
  | succ n ih =>
    intro k pd j h
    have hk : pd ≤ d k := h k le_rfl (by omega)
    simp only [InverseRothC.solver_loop, if_neg (not_lt.mpr hk)]
    rcases lt_or_le pd (d k) with hlt | hle
    · rw [if_pos hlt]
    · rw [if_neg (not_lt.mpr hle)]
      exact ih (k + 1) pd j (fun i h1 h2 => h i (by omega) (by omega))

lemma runMin_le_1000 (d : ℕ → ℚ) : ∀ k, InverseRothC.runMin d k ≤ 1000 := by
  intro k
  induction k with
  | zero => exact le_rfl
  | succ k ih => exact le_trans (min_le_left _ _) ih

lemma solver_loop_tie (d : ℕ → ℚ) (n k : ℕ) (pd : ℚ) (best : Option ℕ)
    (hn : n ≠ 0) (h : d k = pd) :
    InverseRothC.solver_loop d n k pd best
      = ((InverseRothC.solver_loop d (n - 1) (k + 1) pd best).1,
         (InverseRothC.solver_loop d (n - 1) (k + 1) pd best).2 + 1) := by
  obtain ⟨m, rfl⟩ : ∃ m, n = m + 1 := ⟨n - 1, by omega⟩
  simp [InverseRothC.solver_loop, h, Nat.add_sub_cancel]

lemma runMin_succ (d : ℕ → ℚ) (k : ℕ) :
    InverseRothC.runMin d (k + 1) = min (InverseRothC.runMin d k) (d k) := rfl

lemma solver_loop_spec (d : ℕ → ℚ) :
    ∀ n k (best : Option ℕ) (r : Option ℕ × ℕ),
      r = InverseRothC.solver_loop d n k (InverseRothC.runMin d k) best →
      ((best = none ∧ InverseRothC.runMin d k = 1000 ∧ ∀ i, i < k → 1000 ≤ d i) ∨
        (∃ j, best = some j ∧ j < k ∧ d j = InverseRothC.runMin d k ∧ d j < 1000 ∧
          (∀ i, i < j → d j < d i) ∧ ∀ i, i < k → d j ≤ d i)) →
      r.2 ≤ n ∧
      (r.1 = none → ∀ i, i < k + r.2 → 1000 ≤ d i) ∧
      (∀ j, r.1 = some j → j < k + r.2 ∧ d j < 1000 ∧
        (∀ i, i < j → d j < d i) ∧ ∀ i, i < k + r.2 → d j ≤ d i) ∧
      (r.2 = n ∨ 1 ≤ r.2 ∧
        InverseRothC.runMin d (k + r.2 - 1) < d (k + r.2 - 1) ∧
        ∀ i, k ≤ i → i + 1 < k + r.2 → d i ≤ InverseRothC.runMin d i) := by
  intro n
  induction n with
  | zero =>
    intro k best r hr hbest
    simp only [InverseRothC.solver_loop] at hr
    subst hr
    refine ⟨le_rfl, ?_, ?_, Or.inl rfl⟩
    · intro hnone i hi
      rcases hbest with ⟨_, _, hall⟩ | ⟨j, hbj, _⟩
      · exact hall i (by omega)
      · simp only [hbj] at hnone
        cases hnone
    · intro j hj
      rcases hbest with ⟨hbn, _, _⟩ | ⟨j0, hbj, hjk, hje, hjl, hfirst, hall⟩
      · simp only [hbn] at hj
        cases hj
      · simp only [hbj, Option.some.injEq] at hj
        subst hj
        exact ⟨by omega, hjl, hfirst, fun i hi => hall i (by omega)⟩
  | succ n ih =>
    intro k best r hr hbest
    have hple := runMin_le_1000 d k
    rcases lt_trichotomy (d k) (InverseRothC.runMin d k) with himp | heq | hbrk
    · -- strict improvement at candidate k: update best and continue
      have hmin : InverseRothC.runMin d (k + 1) = d k := by
        rw [runMin_succ, min_eq_right himp.le]
      rw [solver_loop_improve d (n + 1) k _ best (by omega) himp] at hr
      simp only [Nat.add_sub_cancel] at hr
      have hfirsts : ∀ i, i < k → d k < d i := by
        intro i hi
        rcases hbest with ⟨_, hpd, hall⟩ | ⟨j, _, _, hje, _, _, hall⟩
        · calc d k < InverseRothC.runMin d k := himp
            _ = 1000 := hpd
            _ ≤ d i := hall i hi
        · calc d k < InverseRothC.runMin d k := himp
            _ = d j := hje.symm
            _ ≤ d i := hall i hi
      have hinv : (some k = none ∧ InverseRothC.runMin d (k + 1) = 1000 ∧
            ∀ i, i < k + 1 → 1000 ≤ d i) ∨
          (∃ j, some k = some j ∧ j < k + 1 ∧ d j = InverseRothC.runMin d (k + 1) ∧
            d j < 1000 ∧ (∀ i, i < j → d j < d i) ∧ ∀ i, i < k + 1 → d j ≤ d i) := by
        refine Or.inr ⟨k, rfl, by omega, hmin.symm, lt_of_lt_of_le himp hple,
          hfirsts, ?_⟩
        intro i hi
        rcases Nat.lt_succ_iff_lt_or_eq.mp hi with h | h
        · exact (hfirsts i h).le
        · subst h; exact le_rfl
      obtain ⟨h1, h2, h3, h4⟩ := ih (k + 1) (some k)
        (InverseRothC.solver_loop d n (k + 1) (d k) (some k)) (by rw [hmin]) hinv
      subst hr
      refine ⟨by omega, ?_, ?_, ?_⟩
      · intro hnone i hi
        exact h2 hnone i (by omega)
      · intro j hj
        obtain ⟨hb1, hb2, hb3, hb4⟩ := h3 j hj
        exact ⟨by omega, hb2, hb3, fun i hi => hb4 i (by omega)⟩
      · rcases h4 with he | ⟨hge, hlt', hall'⟩
        · exact Or.inl (by omega)
        · refine Or.inr ⟨by omega, ?_, ?_⟩
          · have e : k + 1 + ((InverseRothC.solver_loop d n (k + 1) (d k) (some k)).2)
                - 1 = k + ((InverseRothC.solver_loop d n (k + 1) (d k) (some k)).2 + 1)
                - 1 := by omega
            rw [e] at hlt'
            exact hlt'
          · intro i hik hi1
            rcases Nat.lt_or_ge i (k + 1) with h | h
            · have : i = k := by omega
              subst this
              exact himp.le
            · exact hall' i h (by omega)
    · -- tie at candidate k: keep best and continue
      have hmin : InverseRothC.runMin d (k + 1) = InverseRothC.runMin d k := by
        rw [runMin_succ, heq, min_self]
      rw [solver_loop_tie d (n + 1) k _ best (by omega) heq] at hr
      simp only [Nat.add_sub_cancel] at hr
      have hinv : (best = none ∧ InverseRothC.runMin d (k + 1) = 1000 ∧
            ∀ i, i < k + 1 → 1000 ≤ d i) ∨
          (∃ j, best = some j ∧ j < k + 1 ∧ d j = InverseRothC.runMin d (k + 1) ∧
            d j < 1000 ∧ (∀ i, i < j → d j < d i) ∧ ∀ i, i < k + 1 → d j ≤ d i) := by
        rcases hbest with ⟨hbn, hpd, hall⟩ | ⟨j, hbj, hjk, hje, hjl, hfirst, hall⟩
        · refine Or.inl ⟨hbn, by rw [hmin, hpd], ?_⟩
          intro i hi
          rcases Nat.lt_succ_iff_lt_or_eq.mp hi with h | h
          · exact hall i h
          · subst h; rw [heq, hpd]
        · refine Or.inr ⟨j, hbj, by omega, by rw [hmin]; exact hje, hjl, hfirst, ?_⟩
          intro i hi
          rcases Nat.lt_succ_iff_lt_or_eq.mp hi with h | h
          · exact hall i h
          · subst h; rw [heq]; exact le_of_eq hje
      obtain ⟨h1, h2, h3, h4⟩ := ih (k + 1) best
        (InverseRothC.solver_loop d n (k + 1) (InverseRothC.runMin d k) best)
        (by rw [hmin]) hinv
      subst hr
      refine ⟨by omega, ?_, ?_, ?_⟩
      · intro hnone i hi
        exact h2 hnone i (by omega)
      · intro j hj
        obtain ⟨hb1, hb2, hb3, hb4⟩ := h3 j hj
        exact ⟨by omega, hb2, hb3, fun i hi => hb4 i (by omega)⟩
      · rcases h4 with he | ⟨hge, hlt', hall'⟩
        · exact Or.inl (by omega)
        · refine Or.inr ⟨by omega, ?_, ?_⟩
          · have e : k + 1 + ((InverseRothC.solver_loop d n (k + 1)
                (InverseRothC.runMin d k) best).2) - 1
                = k + ((InverseRothC.solver_loop d n (k + 1)
                  (InverseRothC.runMin d k) best).2 + 1) - 1 := by omega
            rw [e] at hlt'
            exact hlt'
          · intro i hik hi1
            rcases Nat.lt_or_ge i (k + 1) with h | h
            · have : i = k := by omega
              subst this
              exact le_of_eq heq
            · exact hall' i h (by omega)
    · -- error grew at candidate k: stop
      rw [solver_loop_break d (n + 1) k _ best (by omega) hbrk] at hr
      subst hr
      refine ⟨by omega, ?_, ?_, ?_⟩
      · intro hnone i hi
        rcases hbest with ⟨_, hpd, hall⟩ | ⟨j, hbj, _⟩
        · rcases Nat.lt_or_ge i k with h | h
          · exact hall i h
          · have : i = k := by omega
            subst this
            rw [hpd] at hbrk
            exact hbrk.le
        · simp only [hbj] at hnone
          cases hnone
      · intro j hj
        rcases hbest with ⟨hbn, _, _⟩ | ⟨j0, hbj, hjk, hje, hjl, hfirst, hall⟩
        · simp only [hbn] at hj
          cases hj
        · simp only [hbj, Option.some.injEq] at hj
          subst hj
          refine ⟨by omega, hjl, hfirst, ?_⟩
          intro i hi
          rcases Nat.lt_or_ge i k with h | h
          · exact hall i h
          · have : i = k := by omega
            subst this
            rw [hje]
            exact hbrk.le
      · refine Or.inr ⟨le_rfl, ?_, ?_⟩
        · simpa using hbrk
        · intro i hik hi1
          omega

/-! C6.  The equilibrium scan: increasing grid, greedy stop, best candidate.
The claim's unconditional "returns the candidate with the smallest error"
fails when every evaluated error is at least the 1000.0 `prevDiff`
initialisation: no candidate is ever recorded and reading `prevC` raises
`NameError`. -/

/-- C6 counterexample: with every candidate error equal to 1500 the solver
evaluates one candidate, records none (the claim promises the smallest-error
candidate), and crashes with `NameError`. -/
theorem c6_counterexample : InverseRothC.solver dConst1500 = (none, 1) := by
  unfold InverseRothC.solver
  rw [solver_loop_break dConst1500 9990 0 1000 none (by norm_num)
    (by norm_num [dConst1500])]

/-- C6 (amended): the solver scans the grid `0.01 + 0.001k` in increasing
order; provided some evaluated candidate has error below the 1000.0
sentinel, it returns the first candidate attaining the minimal error among
all candidates evaluated, and it either exhausts the grid or stops right
after a candidate whose error exceeds the running best. -/
theorem c6_amended (d : ℕ → ℚ)
    (h : ∃ k, k < (InverseRothC.solver d).2 ∧ d k < 1000) :
    ∃ j, (InverseRothC.solver d).1 = some j ∧
      j < (InverseRothC.solver d).2 ∧
      (InverseRothC.solver d).2 ≤ 9990 ∧
      (∀ i, i < (InverseRothC.solver d).2 → d j ≤ d i) ∧
      (∀ i, i < j → d j < d i) ∧
      ((InverseRothC.solver d).2 = 9990 ∨
        InverseRothC.runMin d ((InverseRothC.solver d).2 - 1)
          < d ((InverseRothC.solver d).2 - 1)) ∧
      InverseRothC.grid 0 = 1 / 100 ∧
      (∀ k, InverseRothC.grid (k + 1) = InverseRothC.grid k + 1 / 1000) := by
  obtain ⟨h1, h2, h3, h4⟩ := solver_loop_spec d 9990 0 none (InverseRothC.solver d)
    rfl (Or.inl ⟨rfl, rfl, fun i hi => absurd hi (Nat.not_lt_zero i)⟩)
  obtain ⟨k0, hk0, hk0lt⟩ := h
  rcases hres : (InverseRothC.solver d).1 with _ | j
  · exact absurd (h2 hres k0 (by omega)) (not_le.mpr hk0lt)
  · obtain ⟨hb1, hb2, hb3, hb4⟩ := h3 j hres
    refine ⟨j, rfl, by omega, by omega, fun i hi => hb4 i (by omega), hb3, ?_,
      by norm_num [InverseRothC.grid],
      fun k => by push_cast [InverseRothC.grid]; ring⟩
    rcases h4 with he | ⟨hge, hlt, _⟩
    · exact Or.inl he
    · right
      simpa using hlt

/-- C6 witness: on the error stream 600, 800, 800, ... the solver evaluates
two candidates and returns the first. -/
theorem c6_witness :
    ∃ j, (InverseRothC.solver dStepUp).1 = some j ∧
      j < (InverseRothC.solver dStepUp).2 ∧
      (InverseRothC.solver dStepUp).2 ≤ 9990 ∧
      (∀ i, i < (InverseRothC.solver dStepUp).2 → dStepUp j ≤ dStepUp i) ∧
      (∀ i, i < j → dStepUp j < dStepUp i) ∧
      ((InverseRothC.solver dStepUp).2 = 9990 ∨
        InverseRothC.runMin dStepUp ((InverseRothC.solver dStepUp).2 - 1)
          < dStepUp ((InverseRothC.solver dStepUp).2 - 1)) ∧
      InverseRothC.grid 0 = 1 / 100 ∧
      (∀ k, InverseRothC.grid (k + 1) = InverseRothC.grid k + 1 / 1000) := by
  apply c6_amended
  refine ⟨0, ?_, by norm_num [dStepUp]⟩
  have e1 : InverseRothC.solver dStepUp = (some 0, 2) := by
    unfold InverseRothC.solver
    rw [solver_loop_improve dStepUp 9990 0 1000 none (by norm_num)
      (by norm_num [dStepUp])]
    rw [solver_loop_break dStepUp (9990 - 1) (0 + 1) (dStepUp 0) (some 0)
      (by norm_num) (by norm_num [dStepUp])]
  rw [e1]
  norm_num

/-! C7.  When the error never decreases the solver keeps the first candidate
only if that candidate's error beat the 1000.0 sentinel; otherwise nothing
is ever recorded and the final `eqC = prevC` raises `NameError` rather than
returning the first candidate. -/

/-- C7 counterexample: a never-decreasing error stream constant at 2000
makes the solver terminate with no candidate recorded (a `NameError`), not
with the first candidate. -/
theorem c7_counterexample :
    (∀ k, dConst2000 0 ≤ dConst2000 k) ∧
    (InverseRothC.solver dConst2000).1 = none := by
  refine ⟨fun k => by norm_num [dConst2000], ?_⟩
  unfold InverseRothC.solver
  rw [solver_loop_break dConst2000 9990 0 1000 none (by norm_num)
    (by norm_num [dConst2000])]

/-- C7 (amended): if the error never decreases along the grid and the first
candidate's error is below the 1000.0 sentinel, the solver returns the first
candidate evaluated. -/
theorem c7_amended (d : ℕ → ℚ) (hm : ∀ k, k < 9990 → d 0 ≤ d k)
    (hs : d 0 < 1000) : (InverseRothC.solver d).1 = some 0 := by
  unfold InverseRothC.solver
  rw [solver_loop_improve d 9990 0 1000 none (by norm_num) hs]
  exact solver_loop_keep d 9989 1 (d 0) 0 (fun i h1 h2 => hm i (by omega))

/-- C7 witness: on the never-decreasing stream 500, 700, 700, ... the solver
returns the first candidate. -/
theorem c7_witness : (InverseRothC.solver dFlat).1 = some 0 :=
  c7_amended dFlat
    (fun k hk => by by_cases h : k = 0 <;> norm_num [dFlat, h])
    (by norm_num [dFlat])

/-! Helper lemmas for the solve-to-value search. -/

lemma stv_inner_accept (d : ℕ → ℕ → ℚ) (i fuel j : ℕ) (pd : ℚ)
    (cin : Option (ℕ × ℕ)) (hf : fuel ≠ 0) (h : d i j - pd < 0.00000001) :
    ForwardRothC.stv_inner d i fuel j pd cin
      = ForwardRothC.stv_inner d i (fuel - 1) (j + 1) (d i j) (some (i, j)) := by
  obtain ⟨m, rfl⟩ : ∃ m, fuel = m + 1 := ⟨fuel - 1, by omega⟩
  simp [ForwardRothC.stv_inner, h, Nat.add_sub_cancel]

lemma stv_inner_reject (d : ℕ → ℕ → ℚ) (i fuel j : ℕ) (pd : ℚ)
    (cin : Option (ℕ × ℕ)) (hf : fuel ≠ 0) (h : ¬d i j - pd < 0.00000001) :
    ForwardRothC.stv_inner d i fuel j pd cin = (pd, cin) := by
  obtain ⟨m, rfl⟩ : ∃ m, fuel = m + 1 := ⟨fuel - 1, by omega⟩
  simp [ForwardRothC.stv_inner, h]

lemma stv_inner_walk (d : ℕ → ℕ → ℚ) (i : ℕ) :
    ∀ fuel j (pd : ℚ) cin, fuel ≠ 0 →
      d i j - pd < 0.00000001 →
      (∀ k, j ≤ k → k + 1 < j + fuel → d i (k + 1) ≤ d i k) →
      ForwardRothC.stv_inner d i fuel j pd cin
        = (d i (j + fuel - 1), some (i, j + fuel - 1)) := by
  intro fuel
  induction fuel with
  | zero => intro j pd cin hf; exact absurd rfl hf
  | succ fuel ih =>
    intro j pd cin _ h0 hdec
    rw [stv_inner_accept d i (fuel + 1) j pd cin (by omega) h0,
      Nat.add_sub_cancel]
    rcases Nat.eq_zero_or_pos fuel with hf0 | hfpos
    · subst hf0
      simp [ForwardRothC.stv_inner]
    · have h0' : d i (j + 1) - d i j < 0.00000001 := by
        have := hdec j le_rfl (by omega)
        calc d i (j + 1) - d i j ≤ 0 := by linarith
          _ < 0.00000001 := by norm_num
      rw [ih (j + 1) (d i j) (some (i, j)) (by omega) h0'
        (fun k hk1 hk2 => hdec k (by omega) (by omega))]
      have e : j + 1 + fuel - 1 = j + (fuel + 1) - 1 := by omega
      rw [e]

lemma stv_inner_pd_bound (d : ℕ → ℕ → ℚ) (i : ℕ) :
    ∀ fuel j (pd : ℚ) cin,
      (ForwardRothC.stv_inner d i fuel j pd cin).1
        ≤ pd + fuel * 0.00000001 := by
  intro fuel
  induction fuel with
  | zero => intro j pd cin; simp [ForwardRothC.stv_inner]
  | succ fuel ih =>
    intro j pd cin
    by_cases h : d i j - pd < 0.00000001
    · rw [stv_inner_accept d i (fuel + 1) j pd cin (by omega) h,
        Nat.add_sub_cancel]
      calc (ForwardRothC.stv_inner d i fuel (j + 1) (d i j) (some (i, j))).1
          ≤ d i j + fuel * 0.00000001 := ih (j + 1) (d i j) (some (i, j))
        _ ≤ pd + (fuel + 1 : ℕ) * 0.00000001 := by push_cast; linarith
    · rw [stv_inner_reject d i (fuel + 1) j pd cin (by omega) h]
      have : (0 : ℚ) ≤ (fuel + 1 : ℕ) * 0.00000001 := by positivity
      simpa using by linarith [this]

lemma stv_inner_cin_shape (d : ℕ → ℕ → ℚ) (i : ℕ) :
    ∀ fuel j (pd : ℚ) cin,
      (ForwardRothC.stv_inner d i fuel j pd cin).2 = cin ∨
      ∃ j2, (ForwardRothC.stv_inner d i fuel j pd cin).2 = some (i, j2) ∧
        j ≤ j2 ∧ j2 < j + fuel := by
  intro fuel
  induction fuel with
  | zero => intro j pd cin; exact Or.inl rfl
  | succ fuel ih =>
    intro j pd cin
    by_cases h : d i j - pd < 0.00000001
    · rw [stv_inner_accept d i (fuel + 1) j pd cin (by omega) h,
        Nat.add_sub_cancel]
      rcases ih (j + 1) (d i j) (some (i, j)) with hc | ⟨j2, hc, hj1, hj2⟩
      · exact Or.inr ⟨j, hc, le_rfl, by omega⟩
      · exact Or.inr ⟨j2, hc, by omega, by omega⟩
    · rw [stv_inner_reject d i (fuel + 1) j pd cin (by omega) h]
      exact Or.inl rfl

lemma stv_outer_update (d : ℕ → ℕ → ℚ) (years i : ℕ) (pdI pdO : ℚ)
    (cin cout : Option (ℕ × ℕ)) (ci : Option ℕ) (r : ℚ × Option (ℕ × ℕ))
    (hy : years ≠ 0) (hr : ForwardRothC.stv_inner d i 1000 0 pdI cin = r)
    (hcmp : r.1 < pdO) :
    ForwardRothC.stv_outer d years i pdI pdO cin cout ci
      = ForwardRothC.stv_outer d (years - 1) (i + 1) r.1 r.1 r.2 r.2 (some i) := by
  obtain ⟨m, rfl⟩ : ∃ m, years = m + 1 := ⟨years - 1, by omega⟩
  simp [ForwardRothC.stv_outer, hr, hcmp, Nat.add_sub_cancel]

lemma stv_outer_stop (d : ℕ → ℕ → ℚ) (years i : ℕ) (pdI pdO : ℚ)
    (cin cout : Option (ℕ × ℕ)) (ci : Option ℕ) (r : ℚ × Option (ℕ × ℕ))
    (hy : years ≠ 0) (hr : ForwardRothC.stv_inner d i 1000 0 pdI cin = r)
    (hcmp : ¬r.1 < pdO) :
    ForwardRothC.stv_outer d years i pdI pdO cin cout ci = (ci, cout, r.2) := by
  obtain ⟨m, rfl⟩ : ∃ m, years = m + 1 := ⟨years - 1, by omega⟩
  simp [ForwardRothC.stv_outer, hr, hcmp]

lemma stv_outer_run (d : ℕ → ℕ → ℚ) :
    ∀ years i (pdI pdO : ℚ) a b a' b' c,
      b < 1000 → b' < 1000 → 1 ≤ c → c < i → 1 ≤ i →
      ∃ c' p qa qb,
        ForwardRothC.stv_outer d years i pdI pdO (some (a, b)) (some (a', b'))
            (some c)
          = (some c', some p, some (qa, qb)) ∧
        1 ≤ c' ∧ (c' = c ∨ (i ≤ c' ∧ c' < i + years)) ∧ qb < 1000 := by
  intro years
  induction years with
  | zero =>
    intro i pdI pdO a b a' b' c hb hb' hc hci hi
    exact ⟨c, (a', b'), a, b, rfl, hc, Or.inl rfl, hb⟩
  | succ years ih =>
    intro i pdI pdO a b a' b' c hb hb' hc hci hi
    have hshape := stv_inner_cin_shape d i 1000 0 pdI (some (a, b))
    obtain ⟨x, y, hxy, hy1000⟩ :
        ∃ x y, (ForwardRothC.stv_inner d i 1000 0 pdI (some (a, b))).2
          = some (x, y) ∧ y < 1000 := by
      rcases hshape with hcc | ⟨j2, hcc, _, hj2⟩
      · exact ⟨a, b, hcc, hb⟩
      · exact ⟨i, j2, hcc, by omega⟩
    by_cases hcmp : (ForwardRothC.stv_inner d i 1000 0 pdI (some (a, b))).1 < pdO
    · rw [stv_outer_update d (years + 1) i pdI pdO (some (a, b)) (some (a', b'))
        (some c) _ (by omega) rfl hcmp, Nat.add_sub_cancel, hxy]
      obtain ⟨c', p, qa, qb, hres, hc'1, hc'2, hqb⟩ := ih (i + 1) _ _ x y x y i
        hy1000 hy1000 (by omega) (by omega) (by omega)
      refine ⟨c', p, qa, qb, hres, hc'1, ?_, hqb⟩
      rcases hc'2 with h | ⟨h1, h2⟩
      · exact Or.inr ⟨by omega, by omega⟩
      · exact Or.inr ⟨by omega, by omega⟩
    · rw [stv_outer_stop d (years + 1) i pdI pdO (some (a, b)) (some (a', b'))
        (some c) _ (by omega) rfl hcmp, hxy]
      exact ⟨c, (a', b'), x, y, rfl, hc, Or.inl rfl, hy1000⟩

lemma dC8_year1 (j : ℕ) (hj : j ≤ 999) : dC8 1 j = 999.6 - j := by
  unfold dC8 sC8
  rw [if_pos (by norm_num : (1 : ℕ) ≤ 1)]
  have hc : (j : ℚ) ≤ 999 := by exact_mod_cast hj
  rw [abs_of_nonpos (by linarith)]
  ring

lemma dC8_val_10 : dC8 1 0 = 999.6 := by
  rw [dC8_year1 0 (by norm_num)]
  norm_num

lemma dC8_val_1999 : dC8 1 999 = 0.6 := by
  rw [dC8_year1 999 (by norm_num)]
  norm_num

lemma dC8_val_20 : dC8 2 0 = 0.1 := by
  unfold dC8 sC8
  norm_num

lemma dC8_val_21 : dC8 2 1 = 0.9 := by
  unfold dC8 sC8
  norm_num

lemma dC8_val_30 : dC8 3 0 = 2000.4 := by
  unfold dC8 sC8
  norm_num

/-! C8.  The solve-to-value run: the source returns
`year_target_reached = closest_j / len(t)`, the sub-year offset inside the
closest year, always in `[0, 1)`; the whole year index is conveyed only by
the truncation of the trajectory at `closest_i`.  The claim's requirement
that the integer part of the returned value equal the last full year with
stock at or below the target fails whenever that year is 1 or later. -/

/-- C8 counterexample: on the monotonically increasing trajectory `sC8`
targeting 999.6, the last full year with stock at or below the target is
year 1 (`sC8 1 999 ≤ 999.6 < sC8 2 999`), but the solver truncates at year 2
with `closest_j = 0`, so the returned fractional year `0/1000` has integer
part 0, not 1. -/
theorem c8_counterexample :
    (∀ i j, 1 ≤ i → j < 999 → sC8 i j < sC8 i (j + 1)) ∧
    (∀ i, 1 ≤ i → sC8 i 999 < sC8 (i + 1) 0) ∧
    sC8 1 999 ≤ 999.6 ∧ 999.6 < sC8 2 999 ∧
    ForwardRothC.solver_stv dC8 30 = (some 2, some (2, 0), some 0) ∧
    ⌊(0 : ℚ) / 1000⌋ = 0 ∧ (0 : ℤ) ≠ 1 := by
  refine ⟨?_, ?_, by norm_num [sC8], by norm_num [sC8], ?_, by norm_num, by norm_num⟩
  · intro i j hi hj
    by_cases h1 : i ≤ 1
    · simp only [sC8, if_pos h1]
      exact_mod_cast Nat.lt_succ_self j
    · by_cases h2 : i = 2
      · subst h2
        norm_num [sC8]
      · simp only [sC8, if_neg h1, if_neg h2]
        push_cast
        linarith
  · intro i hi
    by_cases h1 : i = 1
    · subst h1
      norm_num [sC8]
    · by_cases h2 : i = 2
      · subst h2
        norm_num [sC8]
      · have h3 : ¬i ≤ 1 := by omega
        have h4 : ¬i + 1 ≤ 1 := by omega
        have h5 : ¬i + 1 = 2 := by omega
        simp only [sC8, if_neg h3, if_neg h2, if_neg h4, if_neg h5]
        push_cast
        linarith
  · -- run the two-level greedy search
    have hwalk := stv_inner_walk dC8 1 1000 0 1000 none (by omega)
      (by rw [dC8_val_10]; norm_num)
      (fun k _ hk => by
        rw [dC8_year1 (k + 1) (by omega), dC8_year1 k (by omega)]
        push_cast
        linarith)
    norm_num at hwalk
    have ho1 := stv_outer_update dC8 30 1 1000 1000 none none none
      (dC8 1 999, some (1, 999)) (by omega) hwalk
      (by rw [dC8_val_1999]; norm_num)
    norm_num at ho1
    have hi2 : ForwardRothC.stv_inner dC8 2 1000 0 (dC8 1 999) (some (1, 999))
        = (dC8 2 0, some (2, 0)) := by
      rw [stv_inner_accept dC8 2 1000 0 _ _ (by omega)
        (by rw [dC8_val_20, dC8_val_1999]; norm_num)]
      norm_num
      rw [stv_inner_reject dC8 2 999 1 _ _ (by omega)
        (by rw [dC8_val_21, dC8_val_20]; norm_num)]
    have ho2 := stv_outer_update dC8 29 2 (dC8 1 999) (dC8 1 999)
      (some (1, 999)) (some (1, 999)) (some 1) (dC8 2 0, some (2, 0))
      (by omega) hi2 (by rw [dC8_val_20, dC8_val_1999]; norm_num)
    norm_num at ho2
    have hi3 : ForwardRothC.stv_inner dC8 3 1000 0 (dC8 2 0) (some (2, 0))
        = (dC8 2 0, some (2, 0)) :=
      stv_inner_reject dC8 3 1000 0 _ _ (by omega)
        (by rw [dC8_val_30, dC8_val_20]; norm_num)
    have ho3 := stv_outer_stop dC8 28 3 (dC8 2 0) (dC8 2 0)
      (some (2, 0)) (some (2, 0)) (some 2) (dC8 2 0, some (2, 0))
      (by omega) hi3 (lt_irrefl _)
    simp only [ForwardRothC.solver_stv]
    rw [ho1, ho2, ho3]
    simp

/-- C8 (amended): in a solve-to-value run whose first-row error is below the
sentinel, the solver returns a truncation year `closest_i` between 1 and the
number of years, together with a bound sub-year offset `closest_j < 1000`;
the returned fractional year `closest_j/1000` always lies in `[0, 1)` — it
carries only the within-year offset, the year itself being recoverable from
the truncated trajectory length `closest_i + 1`. -/
theorem c8_amended (d : ℕ → ℕ → ℚ) (nYears : ℕ) (hy : 1 ≤ nYears)
    (h0 : d 1 0 ≤ 999) :
    ∃ ci p cj, ForwardRothC.solver_stv d nYears = (some ci, some p, some cj) ∧
      1 ≤ ci ∧ ci ≤ nYears ∧ cj < 1000 ∧
      (0 : ℚ) ≤ (cj : ℚ) / 1000 ∧ (cj : ℚ) / 1000 < 1 := by
  obtain ⟨y, rfl⟩ : ∃ y, nYears = y + 1 := ⟨nYears - 1, by omega⟩
  have hacc : d 1 0 - 1000 < 0.00000001 := by linarith
  have hr1 : ForwardRothC.stv_inner d 1 1000 0 1000 none
      = ForwardRothC.stv_inner d 1 999 1 (d 1 0) (some (1, 0)) := by
    simpa using stv_inner_accept d 1 1000 0 1000 none (by omega) hacc
  have hpd : (ForwardRothC.stv_inner d 1 1000 0 1000 none).1 < 1000 := by
    rw [hr1]
    calc (ForwardRothC.stv_inner d 1 999 1 (d 1 0) (some (1, 0))).1
        ≤ d 1 0 + (999 : ℕ) * 0.00000001 :=
          stv_inner_pd_bound d 1 999 1 (d 1 0) (some (1, 0))
      _ < 1000 := by push_cast; linarith
  obtain ⟨x, y0, hxy, hy1000⟩ :
      ∃ x y0, (ForwardRothC.stv_inner d 1 1000 0 1000 none).2 = some (x, y0) ∧
        y0 < 1000 := by
    rw [hr1]
    rcases stv_inner_cin_shape d 1 999 1 (d 1 0) (some (1, 0)) with hc | ⟨j2, hc, _, hj2⟩
    · exact ⟨1, 0, hc, by norm_num⟩
    · exact ⟨1, j2, hc, by omega⟩
  have houter := stv_outer_update d (y + 1) 1 1000 1000 none none none
    (ForwardRothC.stv_inner d 1 1000 0 1000 none) (by omega) rfl hpd
  rw [hxy] at houter
  simp only [Nat.add_sub_cancel] at houter
  obtain ⟨c', p, qa, qb, hres, hc'1, hc'2, hqb⟩ := stv_outer_run d y 2
    (ForwardRothC.stv_inner d 1 1000 0 1000 none).1
    (ForwardRothC.stv_inner d 1 1000 0 1000 none).1 x y0 x y0 1
    hy1000 hy1000 le_rfl (by omega) (by omega)
  refine ⟨c', p, qb, ?_, hc'1, ?_, hqb, by positivity, ?_⟩
  · simp only [ForwardRothC.solver_stv]
    rw [houter, hres]
    simp
  · rcases hc'2 with h | ⟨h1, h2⟩ <;> omega
  · rw [div_lt_one (by norm_num)]
    exact_mod_cast hqb

/-- C8 witness: a run on the constant error stream 500 with 30 years. -/
theorem c8_witness :
    ∃ ci p cj, ForwardRothC.solver_stv dW8 30 = (some ci, some p, some cj) ∧
      1 ≤ ci ∧ ci ≤ 30 ∧ cj < 1000 ∧
      (0 : ℚ) ≤ (cj : ℚ) / 1000 ∧ (cj : ℚ) / 1000 < 1 :=
  c8_amended dW8 30 (by norm_num) (by norm_num [dW8])
